import Mathlib

/-!
Verification of the kobo2notion synchronization script (src/kobo2notion.py).

The Python source is shallowly embedded below: each function of the script is
translated to an executable Lean definition, and the claims of the
specification are settled as theorems about these definitions.

Python strings are modelled as Lean `String`s, and Python's `<` / `>` on
strings (code-point lexicographic comparison) is modelled by the executable
function `pyLt` defined here, so that every comparison the script performs is
kernel-computable.
-/

/-- Python comparison of two characters: by Unicode code point. -/
def pyCharLt (a b : Char) : Bool := decide (a.toNat < b.toNat)

/-- Python lexicographic comparison of two strings, on their character
lists: equal heads recurse, differing heads compare by code point, and a
proper prefix is smaller. -/
def pyStrLtL : List Char → List Char → Bool
  | [], [] => false
  | [], _ :: _ => true
  | _ :: _, [] => false
  | a :: as, b :: bs => if a = b then pyStrLtL as bs else pyCharLt a b

/-- Python `s < t` on strings. -/
def pyLt (s t : String) : Bool := pyStrLtL s.data t.data

/-- The larger of two strings in Python's lexicographic order
(`if a < b then b else a`). -/
def strMax (a b : String) : String := if pyLt a b then b else a

/-- A log line emitted through the script's logger: either `logging.info`
or `logging.error`, with the message text. -/
inductive LogEvent where
  | info (msg : String)
  | error (msg : String)
deriving DecidableEq

/-- `NODELTA_DATE = '1970-01-01 00:00:00'` (line 15 of the source). -/
def NODELTA_DATE : String := "1970-01-01 00:00:00"

/-- A naive `datetime.datetime` value as produced by the two parsers the
script uses (`datetime.fromisoformat` and `datetime.strptime`). -/
structure PyDateTime where
  year : Nat
  month : Nat
  day : Nat
  hour : Nat
  minute : Nat
  second : Nat
deriving DecidableEq

/-- Gregorian leap-year rule used by Python's `datetime`. -/
def isLeapYear (y : Nat) : Bool :=
  y % 4 = 0 && (y % 100 != 0 || y % 400 = 0)

/-- Number of days of month `m` of year `y` (Python `calendar` rule). -/
def daysInMonth (y m : Nat) : Nat :=
  if m = 2 then (if isLeapYear y then 29 else 28)
  else if m = 4 ∨ m = 6 ∨ m = 9 ∨ m = 11 then 30
  else 31

/-- Field bounds enforced by the `datetime.datetime` constructor
(`MINYEAR = 1`, `MAXYEAR = 9999`). -/
def validDate (d : PyDateTime) : Prop :=
  1 ≤ d.year ∧ d.year ≤ 9999 ∧ 1 ≤ d.month ∧ d.month ≤ 12 ∧
  1 ≤ d.day ∧ d.day ≤ daysInMonth d.year d.month ∧
  d.hour ≤ 23 ∧ d.minute ≤ 59 ∧ d.second ≤ 59

instance (d : PyDateTime) : Decidable (validDate d) := by
  unfold validDate; infer_instance

/-- Constructing a `datetime.datetime`: returns `none` (a `ValueError` in
Python) when a field is out of range. -/
def mkDateTime (y mo d h mi s : Nat) : Option PyDateTime :=
  if validDate ⟨y, mo, d, h, mi, s⟩ then some ⟨y, mo, d, h, mi, s⟩ else none

/-- Numeric value of two digit characters, `none` if either is not a digit. -/
def digitsVal2 (a b : Char) : Option Nat :=
  if a.isDigit && b.isDigit then some (10 * (a.toNat - 48) + (b.toNat - 48))
  else none

/-- Numeric value of four digit characters, `none` if any is not a digit. -/
def digitsVal4 (a b c d : Char) : Option Nat :=
  if a.isDigit && b.isDigit && c.isDigit && d.isDigit then
    some (1000 * (a.toNat - 48) + 100 * (b.toNat - 48) +
          10 * (c.toNat - 48) + (d.toNat - 48))
  else none

/-- The time component accepted by `datetime.fromisoformat` (pre-3.11
strict form, without fractional seconds or offsets, which this script's
inputs never carry): `HH`, `HH:MM` or `HH:MM:SS`, each field exactly two
digits. -/
def parseIsoTime : List Char → Option (Nat × Nat × Nat)
  | [h1, h2] => (digitsVal2 h1 h2).map fun h => (h, 0, 0)
  | [h1, h2, ':', m1, m2] => do
    let h ← digitsVal2 h1 h2
    let mi ← digitsVal2 m1 m2
    pure (h, mi, 0)
  | [h1, h2, ':', m1, m2, ':', s1, s2] => do
    let h ← digitsVal2 h1 h2
    let mi ← digitsVal2 m1 m2
    let s ← digitsVal2 s1 s2
    pure (h, mi, s)
  | _ => none

/-- `datetime.fromisoformat` (pre-3.11 strict form): `YYYY-MM-DD`,
optionally followed by any single separator character and a time part;
out-of-range fields raise, modelled by `none`. -/
def pyFromIsoformat (str : String) : Option PyDateTime :=
  match str.data with
  | y1 :: y2 :: y3 :: y4 :: '-' :: m1 :: m2 :: '-' :: d1 :: d2 :: rest => do
    let y ← digitsVal4 y1 y2 y3 y4
    let mo ← digitsVal2 m1 m2
    let d ← digitsVal2 d1 d2
    match rest with
    | [] => mkDateTime y mo d 0 0 0
    | _ :: timePart => do
      let (h, mi, s) ← parseIsoTime timePart
      mkDateTime y mo d h mi s
  | _ => none

/-- Consume one or two digits (as `strptime`'s numeric directives do:
greedily two digits when both are digits, otherwise one). -/
def parseNat2or1 : List Char → Option (Nat × List Char)
  | a :: b :: rest =>
    if a.isDigit then
      if b.isDigit then some (10 * (a.toNat - 48) + (b.toNat - 48), rest)
      else some (a.toNat - 48, b :: rest)
    else none
  | [a] => if a.isDigit then some (a.toNat - 48, []) else none
  | [] => none

/-- Consume an expected literal character. -/
def expectChar (c : Char) : List Char → Option (List Char)
  | x :: rest => if x = c then some rest else none
  | [] => none

/-- `datetime.strptime(date_str, '%Y-%m-%dT%H:%M:%SZ')`: a four-digit year,
then `-`, one-or-two-digit month, `-`, day, `T`, hour, `:`, minute, `:`,
second, and a final literal `Z`; out-of-range fields raise, modelled by
`none`. -/
def pyStrptimeZ (str : String) : Option PyDateTime :=
  match str.data with
  | y1 :: y2 :: y3 :: y4 :: rest => do
    let y ← digitsVal4 y1 y2 y3 y4
    let r1 ← expectChar '-' rest
    let (mo, r2) ← parseNat2or1 r1
    let r3 ← expectChar '-' r2
    let (d, r4) ← parseNat2or1 r3
    let r5 ← expectChar 'T' r4
    let (h, r6) ← parseNat2or1 r5
    let r7 ← expectChar ':' r6
    let (mi, r8) ← parseNat2or1 r7
    let r9 ← expectChar ':' r8
    let (s, r10) ← parseNat2or1 r9
    let r11 ← expectChar 'Z' r10
    match r11 with
    | [] => mkDateTime y mo d h mi s
    | _ => none
  | _ => none

/-- The digit character for `n < 10`. -/
def digitChar (n : Nat) : Char := Char.ofNat (48 + n)

/-- A number rendered as exactly two decimal digits (zero-padded). -/
def pad2 (n : Nat) : List Char := [digitChar (n / 10), digitChar (n % 10)]

/-- A number rendered as exactly four decimal digits (zero-padded). -/
def pad4 (n : Nat) : List Char := pad2 (n / 100) ++ pad2 (n % 100)

/-- Character list of `strftime('%Y-%m-%d %H:%M:%S')`. -/
def fmtChars (d : PyDateTime) : List Char :=
  pad4 d.year ++ '-' :: (pad2 d.month ++ '-' :: (pad2 d.day ++ ' ' ::
    (pad2 d.hour ++ ':' :: (pad2 d.minute ++ ':' :: pad2 d.second))))

/-- `date_obj.strftime('%Y-%m-%d %H:%M:%S')`. -/
def pyStrftime (d : PyDateTime) : String := ⟨fmtChars d⟩

/-- `convert_date` (lines 90-100): try `fromisoformat`, then the
`Z`-suffixed `strptime` form, else raise `ValueError('Invalid date
format')`; on success render the canonical string. -/
def convert_date (date_str : String) : Except String String :=
  match pyFromIsoformat date_str with
  | some d => .ok (pyStrftime d)
  | none =>
    match pyStrptimeZ date_str with
    | some d => .ok (pyStrftime d)
    | none => .error "Invalid date format"

/-- One row of the join query of `parse_database`: the `Bookmark` columns
followed by the `content` columns. The timestamp columns are nullable.
The fields named `annot` and `extraAnnotData` model the source's
`Bookmark.Annotation` and `Bookmark.ExtraAnnotationData` columns. -/
structure RowValues where
  volumeid : String
  type : String
  text : String
  annot : Option String
  extraAnnotData : Option String
  datecreated : Option String
  datemodified : Option String
  booktitle : String
  title : String
  author : String
deriving DecidableEq

/-- The `Item` record (lines 37-64): absent timestamps are substituted
with `NODELTA_DATE`; `to_dict` preserves every field, so the dictionary is
modelled by the same structure. -/
structure Item where
  volumeid : String
  type : String
  text : String
  annot : Option String
  extraAnnotData : Option String
  datecreated : String
  datemodified : String
  booktitle : String
  title : String
  author : String
deriving DecidableEq

/-- `Item.__init__` from one row of query values (lines 39-49). -/
def Item.ofValues (v : RowValues) : Item :=
  { volumeid := v.volumeid
    type := v.type
    text := v.text
    annot := v.annot
    extraAnnotData := v.extraAnnotData
    datecreated := v.datecreated.getD NODELTA_DATE
    datemodified := v.datemodified.getD NODELTA_DATE
    booktitle := v.booktitle
    title := v.title
    author := v.author }

/-- `parse_database` (lines 147-168). The sqlite read is modelled by its
outcome: either the fetched rows or an exception. On an exception the
function logs an error and returns the empty list instead of raising. -/
def parse_database (db : Except String (List RowValues)) :
    List LogEvent × List Item :=
  match db with
  | .ok data => ([.info "Parsing database"], data.map Item.ofValues)
  | .error _ =>
    ([.info "Parsing database",
      .error "Unexpected error reading your KoboReader.sqlite file:"], [])

/-- One paragraph content block of the Notion page request: its text and
its `annotations.italic` flag. -/
structure Block where
  content : String
  italic : Bool
deriving DecidableEq

/-- The page-creation request body built by `create_notion_page`. -/
structure Page where
  parent_page_id : String
  icon : String
  title : String
  children : List Block
deriving DecidableEq

/-- Fuel-bounded worker for `contentBlocks`: takes 2000 characters at a
time; the fuel only bounds the iteration count (one slice consumes at
least one character, so `l.length` fuel always suffices). -/
def contentBlocksGo : Nat → List Char → List (List Char)
  | 0, _ => []
  | fuel + 1, l =>
    if l = [] then [] else l.take 2000 :: contentBlocksGo fuel (l.drop 2000)

/-- The list comprehension of line 113:
`[main_content[i:i+2000] for i in range(0, len(main_content), 2000)]`,
as a recursion taking 2000 characters at a time. -/
def contentBlocks (l : List Char) : List (List Char) :=
  contentBlocksGo l.length l

/-- The request body built by `create_notion_page` (lines 103-134): the
body text split into 2000-character paragraph blocks followed by one
italic attribution block. -/
def create_notion_page (parent_page_id icon title_content main_content
    source_content : String) : Page :=
  { parent_page_id := parent_page_id
    icon := icon
    title := title_content
    children :=
      (contentBlocks main_content.data).map (fun b => ⟨⟨b⟩, false⟩) ++
        [⟨source_content, true⟩] }

/-- One HTTP response of the remote endpoint. -/
structure HttpResponse where
  status_code : Nat
  text : String
deriving DecidableEq

/-- Observable outcome of the submission loop: the log lines it emits and
the list of sleep durations (in seconds) it performs. -/
structure SubmitOutcome where
  logs : List LogEvent
  sleeps : List Nat
deriving DecidableEq

/-- The `while True` submission loop of `create_notion_page` (lines
136-144), run against a given sequence of responses of the remote
endpoint: on status 200 it logs success and returns; otherwise it logs the
status and body, logs the retry notice, sleeps 60 seconds and posts the
identical request again. `none` means the response sequence was exhausted
without a success, i.e. the loop has not returned. -/
def submitWithRetry (title_content : String) :
    List HttpResponse → Option SubmitOutcome
  | [] => none
  | r :: rs =>
    if r.status_code = 200 then
      some ⟨[.info ("Created \"" ++ title_content ++ "\"")], []⟩
    else
      (submitWithRetry title_content rs).map fun t =>
        ⟨.error (toString r.status_code ++ ": " ++ r.text) ::
           .info "Retrying in 1 minute" :: t.logs,
         60 :: t.sleeps⟩

/-- `kobo_item['type'].capitalize()`: first character upper-cased, the
rest lower-cased. -/
def pyCapitalize (s : String) : String :=
  match s.data with
  | [] => ⟨[]⟩
  | c :: rest => ⟨c.toUpper :: rest.map Char.toLower⟩

/-- `title_content = f'{record_type}: {title}'` (line 184). -/
def title_contentOf (it : Item) : String :=
  pyCapitalize it.type ++ ": " ++ it.title

/-- `source_content = f'Source: {title}, {author}'` (line 185). -/
def source_contentOf (it : Item) : String :=
  "Source: " ++ it.title ++ ", " ++ it.author

/-- The publish test of line 187:
`delta_date is None or date_created > delta_date or date_modified > delta_date`. -/
def shouldPublish (delta : Option String) (dc dm : String) : Bool :=
  match delta with
  | none => true
  | some w => pyLt w dc || pyLt w dm

/-- One `latest_date` update of lines 190-193, for a single candidate
date: `if latest_date is None or d > latest_date: latest_date = d`. -/
def updLatest (latest : Option String) (d : String) : Option String :=
  match latest with
  | none => some d
  | some l => some (if pyLt l d then d else l)

/-- The `for kobo_item in kobo_items` loop of `export_kobo_items` (lines
176-193), accumulating the pages created (in call order) and
`latest_date`. A date-conversion failure propagates as the exception it
raises in Python. -/
def exportLoop (parent icon : String) (delta : Option String) :
    List Item → Option String → List Page →
    Except String (List Page × Option String)
  | [], latest, pages => .ok (pages, latest)
  | it :: rest, latest, pages =>
    match convert_date it.datecreated with
    | .error e => .error e
    | .ok dc =>
      match convert_date it.datemodified with
      | .error e => .error e
      | .ok dm =>
        if shouldPublish delta dc dm then
          exportLoop parent icon delta rest
            (updLatest (updLatest latest dc) dm)
            (pages ++ [create_notion_page parent icon (title_contentOf it)
              it.text (source_contentOf it)])
        else
          exportLoop parent icon delta rest latest pages

/-- Python truthiness of a string: non-empty. -/
def pyTruthy (s : String) : Bool := !s.data.isEmpty

/-- Observable outcome of one `export_kobo_items` run: the log lines of
the database parse, the pages created (in order), and the watermark
written back to `config.yaml` (`none` when the file is not written). -/
structure RunResult where
  logs : List LogEvent
  pages : List Page
  configWrite : Option String
deriving DecidableEq

/-- The final watermark write-back of lines 195-198: the configuration is
rewritten with `latest_date` iff `latest_date` is truthy. -/
def configWriteOf (latest : Option String) : Option String :=
  match latest with
  | some l => if pyTruthy l then some l else none
  | none => none

/-- `export_kobo_items` (lines 171-198): parse the database, publish every
record passing the delta-date test while accumulating `latest_date`, and
write `latest_date` back to the configuration iff it is truthy. -/
def export_kobo_items (parent icon : String)
    (db : Except String (List RowValues)) (delta : Option String) :
    Except String RunResult :=
  let (logs, kobo_items) := parse_database db
  match exportLoop parent icon delta kobo_items none [] with
  | .error e => .error e
  | .ok (pages, latest) => .ok ⟨logs, pages, configWriteOf latest⟩

/-- A filesystem side effect of the run. -/
inductive FsAction where
  | removeCache
  | copyToCache
  | writeConfig (watermark : String)
deriving DecidableEq

/-- `copy_database` (lines 78-87): when the source database exists, remove
a stale cache copy and copy the database over; otherwise log an error and
`exit()`. Returns the log lines, the filesystem actions performed, and
whether the process terminated. -/
def copy_database (sourceExists cacheExists : Bool) :
    List LogEvent × List FsAction × Bool :=
  if sourceExists then
    ([.info "Retrieving database from e-reader"],
     (if cacheExists then [.removeCache] else []) ++ [.copyToCache], false)
  else
    ([.error "Database not found, is your e-reader connected?"], [], true)

/-- Observable trace of one whole process run: log lines, filesystem
actions, and whether the process exited early in `copy_database`. -/
structure MainTrace where
  logs : List LogEvent
  fs : List FsAction
  exitedEarly : Bool
deriving DecidableEq

/-- The top-level statements of the script (lines 221-224) after the
configuration is loaded: `copy_database` then `export_kobo_items` then the
final info line. `exit()` in `copy_database` terminates the process before
any further action. -/
def mainFlow (parent icon : String) (sourceExists cacheExists : Bool)
    (db : Except String (List RowValues)) (delta : Option String) :
    Except String MainTrace :=
  let (clogs, cfs, exited) := copy_database sourceExists cacheExists
  if exited then .ok ⟨clogs, cfs, true⟩
  else do
    let r ← export_kobo_items parent icon db delta
    .ok ⟨clogs ++ r.logs ++ [.info "Process finished"],
         cfs ++ (match r.configWrite with
                 | some w => [.writeConfig w]
                 | none => []),
         false⟩

/-- Python `str.strip()` whitespace test (ASCII subset). -/
def isPySpace (c : Char) : Bool :=
  c == ' ' || c == '\t' || c == '\n' || c == '\x0d' ||
  c == '\x0b' || c == '\x0c'

/-- Python `str.strip()`: drop whitespace from both ends. -/
def pyStrip (s : String) : String :=
  ⟨((s.data.dropWhile isPySpace).reverse.dropWhile isPySpace).reverse⟩

/-- The `delta_date` configuration pipeline (lines 209-212):
`str(...).strip()`, substitute `NODELTA_DATE` for the empty string, then
normalize through `convert_date`. -/
def loadDeltaDate (raw : String) : Except String String :=
  let s := pyStrip raw
  let s' := if s = "" then NODELTA_DATE else s
  convert_date s'

/-- Measurement used to state the watermark claim: the canonical
`(date_created, date_modified)` values, in loop order, of exactly those
records that pass the publish test. Records that are skipped, and records
past a date-conversion failure, contribute nothing. -/
def publishedDates (delta : Option String) : List Item → List String
  | [] => []
  | it :: rest =>
    match convert_date it.datecreated, convert_date it.datemodified with
    | .ok dc, .ok dm =>
      (if shouldPublish delta dc dm then [dc, dm] else []) ++
        publishedDates delta rest
    | _, _ => publishedDates delta rest

/-- Measurement used to state the filter claim: exactly those records, in
order, whose normalized `createdAt` or `modifiedAt` is strictly greater
than the watermark (every record when the watermark is the `None`
sentinel). -/
def publishedItems (delta : Option String) : List Item → List Item
  | [] => []
  | it :: rest =>
    match convert_date it.datecreated, convert_date it.datemodified with
    | .ok dc, .ok dm =>
      (if shouldPublish delta dc dm then [it] else []) ++
        publishedItems delta rest
    | _, _ => publishedItems delta rest

/-- Chronological order on datetimes: lexicographic on
(year, month, day, hour, minute, second). -/
def dtLt (a b : PyDateTime) : Prop :=
  a.year < b.year ∨ (a.year = b.year ∧ (a.month < b.month ∨ (a.month = b.month ∧
    (a.day < b.day ∨ (a.day = b.day ∧ (a.hour < b.hour ∨ (a.hour = b.hour ∧
      (a.minute < b.minute ∨ (a.minute = b.minute ∧
        a.second < b.second)))))))))

instance (a b : PyDateTime) : Decidable (dtLt a b) := by
  unfold dtLt; infer_instance

/-- Canonical-timestamp check, written from the specification's words: a
string of the exact shape `YYYY-MM-DD HH:MM:SS` whose fields are in range
for a real calendar date. -/
def isCanonical (s : String) : Bool :=
  match s.data with
  | [y1, y2, y3, y4, c1, m1, m2, c2, d1, d2, c3,
     h1, h2, c4, n1, n2, c5, s1, s2] =>
    (c1 == '-') && (c2 == '-') && (c3 == ' ') && (c4 == ':') && (c5 == ':') &&
    (match digitsVal4 y1 y2 y3 y4, digitsVal2 m1 m2, digitsVal2 d1 d2,
        digitsVal2 h1 h2, digitsVal2 n1 n2, digitsVal2 s1 s2 with
     | some y, some mo, some d, some h, some mi, some sec =>
       decide (validDate ⟨y, mo, d, h, mi, sec⟩)
     | _, _, _, _, _, _ => false)
  | _ => false

lemma submitWithRetry_all_fail (title : String) (rs : List HttpResponse)
    (h : ∀ r ∈ rs, r.status_code ≠ 200) :
    submitWithRetry title rs = none := by
  induction rs with
  | nil => rfl
  | cons r rest ih =>
    have hr : r.status_code ≠ 200 := h r (by simp)
    simp [submitWithRetry, hr, ih fun x hx => h x (by simp [hx])]

lemma submitWithRetry_prefix_fail (title : String)
    (pre rest : List HttpResponse) (ok : HttpResponse)
    (h1 : ∀ r ∈ pre, r.status_code ≠ 200) (h2 : ok.status_code = 200) :
    submitWithRetry title (pre ++ ok :: rest) =
      some ⟨(pre.map fun r =>
               [LogEvent.error (toString r.status_code ++ ": " ++ r.text),
                LogEvent.info "Retrying in 1 minute"]).flatten ++
              [LogEvent.info ("Created \"" ++ title ++ "\"")],
            pre.map fun _ => 60⟩ := by
  induction pre with
  | nil => simp [submitWithRetry, h2]
  | cons r rs ih =>
    have hr : r.status_code ≠ 200 := h1 r (by simp)
    simp [submitWithRetry, hr, ih fun x hx => h1 x (by simp [hx])]

/-- C4: the Publisher's submission loop returns only on an HTTP 200
response; for each preceding non-success response it logs the status and
body, logs the retry notice and sleeps a fixed 60 seconds before resending
the identical request, with no retry ceiling (the prefix of failures is
arbitrary); a response sequence with no success never returns. -/
theorem c4_retry_until_success (title : String)
    (pre rest noSucc : List HttpResponse) (ok : HttpResponse)
    (h1 : ∀ r ∈ pre, r.status_code ≠ 200) (h2 : ok.status_code = 200)
    (h3 : ∀ r ∈ noSucc, r.status_code ≠ 200) :
    submitWithRetry title (pre ++ ok :: rest) =
      some ⟨(pre.map fun r =>
               [LogEvent.error (toString r.status_code ++ ": " ++ r.text),
                LogEvent.info "Retrying in 1 minute"]).flatten ++
              [LogEvent.info ("Created \"" ++ title ++ "\"")],
            pre.map fun _ => 60⟩
    ∧ submitWithRetry title noSucc = none :=
  ⟨submitWithRetry_prefix_fail title pre rest ok h1 h2,
   submitWithRetry_all_fail title noSucc h3⟩

/-- C4 witness: two 429 responses then a 200 produce two error lines, two
60-second sleeps and one success line, and the loop returns; a lone 429
does not return. -/
theorem c4_retry_until_success_witness :
    submitWithRetry "T" [⟨429, "rate"⟩, ⟨429, "rate"⟩, ⟨200, "ok"⟩] =
      some ⟨[.error "429: rate", .info "Retrying in 1 minute",
             .error "429: rate", .info "Retrying in 1 minute",
             .info "Created \"T\""], [60, 60]⟩
    ∧ submitWithRetry "T" [⟨429, "x"⟩] = none := by
  simpa using c4_retry_until_success "T" [⟨429, "rate"⟩, ⟨429, "rate"⟩] []
    [⟨429, "x"⟩] ⟨200, "ok"⟩ (by decide) rfl (by decide)

/-- C8: when the sqlite read raises, `parse_database` logs the failure and
the whole export run completes normally with no page published and no
configuration write, leaving the watermark untouched. -/
theorem c8_parse_failure_soft (parent icon e : String)
    (delta : Option String) :
    export_kobo_items parent icon (.error e) delta =
      .ok ⟨[.info "Parsing database",
            .error "Unexpected error reading your KoboReader.sqlite file:"],
           [], none⟩ := rfl

/-- C9: when the source database path does not exist, the process logs
exactly one error line, performs no filesystem action (no cache write, no
configuration write) and terminates immediately. -/
theorem c9_missing_source_exit (parent icon : String) (cacheExists : Bool)
    (db : Except String (List RowValues)) (delta : Option String) :
    mainFlow parent icon false cacheExists db delta =
      .ok ⟨[.error "Database not found, is your e-reader connected?"],
           [], true⟩ := rfl

/-- C10: in the deployed flow an empty configured watermark becomes the
epoch sentinel `1970-01-01 00:00:00`, and a record whose `DateCreated` and
`DateModified` are both NULL (hence sentinel-substituted to that same
string) fails the strict greater-than test and is never published. -/
theorem c10_epoch_sentinel_skip (parent icon v0 v1 v2 v7 v8 v9 : String)
    (a e : Option String) :
    loadDeltaDate "" = .ok NODELTA_DATE ∧
    export_kobo_items parent icon
        (.ok [⟨v0, v1, v2, a, e, none, none, v7, v8, v9⟩])
        (some NODELTA_DATE) =
      .ok ⟨[.info "Parsing database"], [], none⟩ :=
  ⟨rfl, rfl⟩

lemma contentBlocksGo_nil : ∀ n, contentBlocksGo n [] = []
  | 0 => rfl
  | _ + 1 => rfl

lemma contentBlocksGo_ne_nil : ∀ {n : Nat} {l : List Char}, l ≠ [] →
    l.length ≤ n → contentBlocksGo n l ≠ []
  | 0, l, hne, hlen => by
    exact absurd (List.eq_nil_of_length_eq_zero (by omega)) hne
  | n + 1, l, hne, _ => by
    simp only [contentBlocksGo, if_neg hne]
    simp

lemma contentBlocksGo_flatten : ∀ (n : Nat) (l : List Char),
    l.length ≤ n → (contentBlocksGo n l).flatten = l
  | 0, l, h => by
    have hl : l = [] := List.eq_nil_of_length_eq_zero (by omega)
    subst hl
    rfl
  | n + 1, l, h => by
    by_cases hl : l = []
    · subst hl
      rfl
    · have h1 : 1 ≤ l.length := by
        cases l with
        | nil => exact absurd rfl hl
        | cons a as => simp
      simp only [contentBlocksGo, if_neg hl, List.flatten_cons,
        contentBlocksGo_flatten n (l.drop 2000)
          (by simp only [List.length_drop]; omega)]
      exact List.take_append_drop 2000 l

lemma contentBlocks_flatten (l : List Char) :
    (contentBlocks l).flatten = l :=
  contentBlocksGo_flatten l.length l le_rfl

lemma contentBlocksGo_all_le : ∀ (n : Nat) (l : List Char),
    (contentBlocksGo n l).all (fun b => decide (b.length ≤ 2000)) = true
  | 0, _ => rfl
  | n + 1, l => by
    by_cases hl : l = []
    · subst hl
      rfl
    · simp only [contentBlocksGo, if_neg hl, List.all_cons,
        contentBlocksGo_all_le n (l.drop 2000), Bool.and_true]
      simp [List.length_take]

lemma contentBlocks_all_le (l : List Char) :
    (contentBlocks l).all (fun b => decide (b.length ≤ 2000)) = true :=
  contentBlocksGo_all_le l.length l

lemma contentBlocksGo_dropLast_all : ∀ (n : Nat) (l : List Char),
    l.length ≤ n →
    (contentBlocksGo n l).dropLast.all (fun b => b.length == 2000) = true
  | 0, _, _ => rfl
  | n + 1, l, h => by
    by_cases hl : l = []
    · subst hl
      rfl
    · have h1 : 1 ≤ l.length := by
        cases l with
        | nil => exact absurd rfl hl
        | cons a as => simp
      simp only [contentBlocksGo, if_neg hl]
      by_cases hd : l.drop 2000 = []
      · rw [hd, contentBlocksGo_nil]
        rfl
      · rw [List.dropLast_cons_of_ne_nil (contentBlocksGo_ne_nil hd
          (by simp only [List.length_drop]; omega))]
        simp only [List.all_cons, Bool.and_true,
          contentBlocksGo_dropLast_all n (l.drop 2000)
            (by simp only [List.length_drop]; omega)]
        have hlen : 2000 < l.length := by
          by_contra hc
          exact hd (List.drop_eq_nil_of_le (by omega))
        simp [List.length_take, Nat.min_eq_left (le_of_lt hlen)]

lemma contentBlocks_dropLast_all (l : List Char) :
    (contentBlocks l).dropLast.all (fun b => b.length == 2000) = true :=
  contentBlocksGo_dropLast_all l.length l le_rfl

/-- C3: the page-creation request consists of the body split into
consecutive 2000-character content blocks in source order — concatenating
them reproduces the body exactly, every block except possibly the last has
length exactly 2000 and none exceeds 2000 — followed by exactly one
attribution block carrying the italic flag. -/
theorem c3_chunking (parent icon title main source : String) :
    (create_notion_page parent icon title main source).children =
      (contentBlocks main.data).map (fun b => ⟨⟨b⟩, false⟩) ++
        [⟨source, true⟩]
    ∧ (contentBlocks main.data).flatten = main.data
    ∧ (contentBlocks main.data).dropLast.all (fun b => b.length == 2000) = true
    ∧ (contentBlocks main.data).all (fun b => decide (b.length ≤ 2000)) = true :=
  ⟨rfl, contentBlocks_flatten _, contentBlocks_dropLast_all _,
   contentBlocks_all_le _⟩

lemma pyCharLt_irrefl (a : Char) : pyCharLt a a = false := by
  simp [pyCharLt]

lemma pyCharLt_trans {a b c : Char} (h1 : pyCharLt a b = true)
    (h2 : pyCharLt b c = true) : pyCharLt a c = true := by
  simp only [pyCharLt, decide_eq_true_eq] at *
  omega

lemma pyCharLt_asymm {a b : Char} (h : pyCharLt a b = true) :
    pyCharLt b a = false := by
  simp only [pyCharLt, decide_eq_true_eq, decide_eq_false_iff_not] at *
  omega

lemma pyCharLt_ne {a b : Char} (h : pyCharLt a b = true) : a ≠ b := by
  intro hab
  rw [hab, pyCharLt_irrefl] at h
  exact Bool.false_ne_true h

lemma Char_eq_of_not_lt {a b : Char} (h1 : pyCharLt a b = false)
    (h2 : pyCharLt b a = false) : a = b := by
  simp only [pyCharLt, decide_eq_false_iff_not] at h1 h2
  have htn : a.toNat = b.toNat := by omega
  have := congrArg Char.ofNat htn
  rwa [Char.ofNat_toNat, Char.ofNat_toNat] at this

lemma pyStrLtL_irrefl (l : List Char) : pyStrLtL l l = false := by
  induction l with
  | nil => rfl
  | cons a as ih => simp [pyStrLtL, ih]

lemma pyStrLtL_trans : ∀ {l m n : List Char}, pyStrLtL l m = true →
    pyStrLtL m n = true → pyStrLtL l n = true
  | [], [], _, h1, _ => by simp [pyStrLtL] at h1
  | [], _ :: _, [], _, h2 => by simp [pyStrLtL] at h2
  | [], _ :: _, _ :: _, _, _ => rfl
  | _ :: _, [], _, h1, _ => by simp [pyStrLtL] at h1
  | _ :: _, _ :: _, [], _, h2 => by simp [pyStrLtL] at h2
  | a :: as, b :: bs, c :: cs, h1, h2 => by
    simp only [pyStrLtL] at *
    by_cases hab : a = b
    · subst hab
      rw [if_pos rfl] at h1
      by_cases hac : a = c
      · subst hac
        rw [if_pos rfl] at h2 ⊢
        exact pyStrLtL_trans h1 h2
      · rw [if_neg hac] at h2 ⊢
        exact h2
    · rw [if_neg hab] at h1
      by_cases hbc : b = c
      · subst hbc
        rw [if_neg hab]
        exact h1
      · rw [if_neg hbc] at h2
        have hac : a ≠ c := by
          intro he
          subst he
          exact absurd (pyCharLt_asymm h1) (by simp [h2])
        rw [if_neg hac]
        exact pyCharLt_trans h1 h2

lemma pyStrLtL_eq_of_not_lt : ∀ {l m : List Char}, pyStrLtL l m = false →
    pyStrLtL m l = false → l = m
  | [], [], _, _ => rfl
  | [], _ :: _, h1, _ => by simp [pyStrLtL] at h1
  | _ :: _, [], _, h2 => by simp [pyStrLtL] at h2
  | a :: as, b :: bs, h1, h2 => by
    simp only [pyStrLtL] at h1 h2
    by_cases hab : a = b
    · subst hab
      rw [if_pos rfl] at h1 h2
      rw [pyStrLtL_eq_of_not_lt h1 h2]
    · rw [if_neg hab] at h1
      rw [if_neg (Ne.symm hab)] at h2
      exact absurd (Char_eq_of_not_lt h1 h2) hab

lemma pyLt_irrefl (s : String) : pyLt s s = false :=
  pyStrLtL_irrefl s.data

lemma pyLt_trans {s t u : String} (h1 : pyLt s t = true)
    (h2 : pyLt t u = true) : pyLt s u = true :=
  pyStrLtL_trans h1 h2

lemma pyLt_eq_of_not_lt {s t : String} (h1 : pyLt s t = false)
    (h2 : pyLt t s = false) : s = t := by
  cases s with
  | mk ds =>
    cases t with
    | mk dt =>
      exact congrArg String.mk (pyStrLtL_eq_of_not_lt h1 h2)

lemma pyLt_asymm {s t : String} (h : pyLt s t = true) :
    pyLt t s = false := by
  cases hts : pyLt t s with
  | false => rfl
  | true =>
    have := pyLt_trans h hts
    rw [pyLt_irrefl] at this
    exact absurd this (by simp)

lemma digitChar_lt_iff : ∀ a < 10, ∀ b < 10,
    (pyCharLt (digitChar a) (digitChar b) = true ↔ a < b) := by decide

lemma digitChar_inj : ∀ a < 10, ∀ b < 10,
    (digitChar a = digitChar b ↔ a = b) := by decide

lemma pad2_lt_iff {a b : Nat} (ha : a < 100) (hb : b < 100) :
    (pyStrLtL (pad2 a) (pad2 b) = true ↔ a < b) := by
  have h1 : a / 10 < 10 := by omega
  have h2 : b / 10 < 10 := by omega
  have h3 : a % 10 < 10 := by omega
  have h4 : b % 10 < 10 := by omega
  simp only [pad2, pyStrLtL]
  by_cases e1 : digitChar (a / 10) = digitChar (b / 10)
  · rw [if_pos e1]
    have e1' : a / 10 = b / 10 := (digitChar_inj _ h1 _ h2).mp e1
    by_cases e2 : digitChar (a % 10) = digitChar (b % 10)
    · rw [if_pos e2]
      have e2' : a % 10 = b % 10 := (digitChar_inj _ h3 _ h4).mp e2
      constructor
      · intro hf
        exact absurd hf (by simp)
      · intro hab
        omega
    · rw [if_neg e2, digitChar_lt_iff _ h3 _ h4]
      have ne2 : a % 10 ≠ b % 10 := fun he => e2 (congrArg digitChar he)
      constructor <;> intro <;> omega
  · rw [if_neg e1, digitChar_lt_iff _ h1 _ h2]
    have ne1 : a / 10 ≠ b / 10 := fun he => e1 (congrArg digitChar he)
    constructor <;> intro <;> omega

lemma pad2_inj {a b : Nat} (ha : a < 100) (hb : b < 100) :
    pad2 a = pad2 b ↔ a = b := by
  simp only [pad2, List.cons.injEq, and_true]
  rw [digitChar_inj _ (by omega) _ (by omega),
    digitChar_inj _ (by omega) _ (by omega)]
  omega

lemma pyStrLtL_cons_same (c : Char) (u v : List Char) :
    pyStrLtL (c :: u) (c :: v) = pyStrLtL u v := by
  simp [pyStrLtL]

lemma pyStrLtL_append : ∀ {s t u v : List Char},
    s.length = t.length →
    (pyStrLtL (s ++ u) (t ++ v) = true ↔
      pyStrLtL s t = true ∨ (s = t ∧ pyStrLtL u v = true))
  | [], [], u, v, _ => by simp [pyStrLtL]
  | [], _ :: _, _, _, h => by simp at h
  | _ :: _, [], _, _, h => by simp at h
  | a :: as, b :: bs, u, v, h => by
    have hlen : as.length = bs.length := by simpa using h
    by_cases hab : a = b
    · subst hab
      rw [List.cons_append, List.cons_append, pyStrLtL_cons_same,
        pyStrLtL_cons_same, pyStrLtL_append hlen]
      simp
    · rw [List.cons_append, List.cons_append]
      simp only [pyStrLtL, if_neg hab, List.cons.injEq]
      simp [hab]

lemma pad4_lt_iff {a b : Nat} (ha : a < 10000) (hb : b < 10000) :
    (pyStrLtL (pad4 a) (pad4 b) = true ↔ a < b) := by
  rw [pad4, pad4,
    pyStrLtL_append (show (pad2 (a / 100)).length = (pad2 (b / 100)).length
      from rfl),
    pad2_lt_iff (show a / 100 < 100 by omega) (show b / 100 < 100 by omega),
    pad2_lt_iff (show a % 100 < 100 by omega) (show b % 100 < 100 by omega),
    pad2_inj (show a / 100 < 100 by omega) (show b / 100 < 100 by omega)]
  constructor <;> intro <;> omega

lemma pad4_inj {a b : Nat} (ha : a < 10000) (hb : b < 10000) :
    pad4 a = pad4 b ↔ a = b := by
  constructor
  · intro h
    rw [pad4, pad4] at h
    have hp := List.append_inj h
      (show (pad2 (a / 100)).length = (pad2 (b / 100)).length from rfl)
    have h1 := (pad2_inj (show a / 100 < 100 by omega)
      (show b / 100 < 100 by omega)).mp hp.1
    have h2 := (pad2_inj (show a % 100 < 100 by omega)
      (show b % 100 < 100 by omega)).mp hp.2
    omega
  · intro h
    rw [h]

lemma daysInMonth_le (y m : Nat) : daysInMonth y m ≤ 31 := by
  unfold daysInMonth
  split
  · split <;> omega
  · split <;> omega

/-- C5: for valid datetimes, lexicographic comparison of the canonical
`YYYY-MM-DD HH:MM:SS` strings produced by the Date Normalizer agrees with
chronological order. -/
theorem c5_canonical_order (a b : PyDateTime) (ha : validDate a)
    (hb : validDate b) :
    (pyLt (pyStrftime a) (pyStrftime b) = true ↔ dtLt a b) := by
  obtain ⟨hy1, hy2, hm1, hm2, hd1, hd2, hh, hmi, hs⟩ := ha
  obtain ⟨gy1, gy2, gm1, gm2, gd1, gd2, gh, gmi, gs⟩ := hb
  have hd2' : a.day ≤ 31 := le_trans hd2 (daysInMonth_le _ _)
  have gd2' : b.day ≤ 31 := le_trans gd2 (daysInMonth_le _ _)
  show pyStrLtL (fmtChars a) (fmtChars b) = true ↔ dtLt a b
  rw [fmtChars, fmtChars,
    pyStrLtL_append (show (pad4 a.year).length = (pad4 b.year).length
      from rfl),
    pyStrLtL_cons_same,
    pyStrLtL_append (show (pad2 a.month).length = (pad2 b.month).length
      from rfl),
    pyStrLtL_cons_same,
    pyStrLtL_append (show (pad2 a.day).length = (pad2 b.day).length
      from rfl),
    pyStrLtL_cons_same,
    pyStrLtL_append (show (pad2 a.hour).length = (pad2 b.hour).length
      from rfl),
    pyStrLtL_cons_same,
    pyStrLtL_append (show (pad2 a.minute).length = (pad2 b.minute).length
      from rfl),
    pyStrLtL_cons_same,
    pad4_lt_iff (by omega) (by omega), pad4_inj (by omega) (by omega),
    pad2_lt_iff (show a.month < 100 by omega) (show b.month < 100 by omega),
    pad2_inj (show a.month < 100 by omega) (show b.month < 100 by omega),
    pad2_lt_iff (show a.day < 100 by omega) (show b.day < 100 by omega),
    pad2_inj (show a.day < 100 by omega) (show b.day < 100 by omega),
    pad2_lt_iff (show a.hour < 100 by omega) (show b.hour < 100 by omega),
    pad2_inj (show a.hour < 100 by omega) (show b.hour < 100 by omega),
    pad2_lt_iff (show a.minute < 100 by omega) (show b.minute < 100 by omega),
    pad2_inj (show a.minute < 100 by omega) (show b.minute < 100 by omega),
    pad2_lt_iff (show a.second < 100 by omega) (show b.second < 100 by omega)]
  rfl

/-- C5 witness: two concrete valid datetimes, with the order law
instantiated at them. -/
theorem c5_canonical_order_witness :
    validDate ⟨2023, 1, 1, 0, 0, 0⟩ ∧ validDate ⟨2023, 6, 1, 0, 0, 0⟩ ∧
    (pyLt (pyStrftime ⟨2023, 1, 1, 0, 0, 0⟩)
        (pyStrftime ⟨2023, 6, 1, 0, 0, 0⟩) = true ↔
      dtLt ⟨2023, 1, 1, 0, 0, 0⟩ ⟨2023, 6, 1, 0, 0, 0⟩) :=
  ⟨by decide, by decide,
   c5_canonical_order ⟨2023, 1, 1, 0, 0, 0⟩ ⟨2023, 6, 1, 0, 0, 0⟩
     (by decide) (by decide)⟩

lemma mkDateTime_valid {y mo d h mi s : Nat} {dt : PyDateTime}
    (hmk : mkDateTime y mo d h mi s = some dt) : validDate dt := by
  unfold mkDateTime at hmk
  split at hmk
  · next hv =>
    cases hmk
    exact hv
  · exact absurd hmk (by simp)

lemma pyFromIsoformat_valid {s : String} {dt : PyDateTime}
    (h : pyFromIsoformat s = some dt) : validDate dt := by
  unfold pyFromIsoformat at h
  split at h
  · simp only [Option.bind_eq_bind, Option.bind_eq_some] at h
    obtain ⟨y, hy, h⟩ := h
    obtain ⟨mo, hmo, h⟩ := h
    obtain ⟨d, hd, h⟩ := h
    split at h
    · exact mkDateTime_valid h
    · simp only [Option.bind_eq_bind, Option.bind_eq_some] at h
      obtain ⟨⟨hh, mi, ss⟩, ht, h⟩ := h
      exact mkDateTime_valid h
  · exact absurd h (by simp)

lemma pyStrptimeZ_valid {s : String} {dt : PyDateTime}
    (h : pyStrptimeZ s = some dt) : validDate dt := by
  unfold pyStrptimeZ at h
  split at h
  · simp only [Option.bind_eq_bind, Option.bind_eq_some] at h
    obtain ⟨y, hy, h⟩ := h
    obtain ⟨r1, hr1, h⟩ := h
    obtain ⟨⟨mo, r2⟩, hmo, h⟩ := h
    obtain ⟨r3, hr3, h⟩ := h
    obtain ⟨⟨d, r4⟩, hd, h⟩ := h
    obtain ⟨r5, hr5, h⟩ := h
    obtain ⟨⟨hh, r6⟩, hhh, h⟩ := h
    obtain ⟨r7, hr7, h⟩ := h
    obtain ⟨⟨mi, r8⟩, hmi, h⟩ := h
    obtain ⟨r9, hr9, h⟩ := h
    obtain ⟨⟨ss, r10⟩, hss, h⟩ := h
    obtain ⟨r11, hr11, h⟩ := h
    split at h
    · exact mkDateTime_valid h
    · exact absurd h (by simp)
  · exact absurd h (by simp)

lemma convert_date_ok_shape {s out : String}
    (h : convert_date s = .ok out) :
    ∃ dt, validDate dt ∧ out = pyStrftime dt := by
  unfold convert_date at h
  split at h
  · next d hd =>
    cases h
    exact ⟨d, pyFromIsoformat_valid hd, rfl⟩
  · split at h
    · next d hd =>
      cases h
      exact ⟨d, pyStrptimeZ_valid hd, rfl⟩
    · exact absurd h (by simp)

lemma digitChar_isDigit : ∀ a < 10, (digitChar a).isDigit = true := by decide

lemma digitChar_toNat : ∀ a < 10, (digitChar a).toNat = 48 + a := by decide

lemma digitsVal2_digitChar {a b : Nat} (ha : a < 10) (hb : b < 10) :
    digitsVal2 (digitChar a) (digitChar b) = some (10 * a + b) := by
  unfold digitsVal2
  rw [digitChar_isDigit _ ha, digitChar_isDigit _ hb,
    digitChar_toNat _ ha, digitChar_toNat _ hb]
  simp only [Bool.and_self, if_true]
  exact congrArg some (by omega)

lemma digitsVal4_digitChar {a b c d : Nat} (ha : a < 10) (hb : b < 10)
    (hc : c < 10) (hd : d < 10) :
    digitsVal4 (digitChar a) (digitChar b) (digitChar c) (digitChar d) =
      some (1000 * a + 100 * b + 10 * c + d) := by
  unfold digitsVal4
  rw [digitChar_isDigit _ ha, digitChar_isDigit _ hb,
    digitChar_isDigit _ hc, digitChar_isDigit _ hd,
    digitChar_toNat _ ha, digitChar_toNat _ hb,
    digitChar_toNat _ hc, digitChar_toNat _ hd]
  simp only [Bool.and_self, if_true]
  exact congrArg some (by omega)

lemma isCanonical_pyStrftime {dt : PyDateTime} (hv : validDate dt) :
    isCanonical (pyStrftime dt) = true := by
  obtain ⟨h1, h2, h3, h4, h5, h6, h7, h8, h9⟩ := hv
  have hday : dt.day ≤ 31 := le_trans h6 (daysInMonth_le _ _)
  rw [show pyStrftime dt =
    ⟨[digitChar (dt.year / 100 / 10), digitChar (dt.year / 100 % 10),
      digitChar (dt.year % 100 / 10), digitChar (dt.year % 100 % 10), '-',
      digitChar (dt.month / 10), digitChar (dt.month % 10), '-',
      digitChar (dt.day / 10), digitChar (dt.day % 10), ' ',
      digitChar (dt.hour / 10), digitChar (dt.hour % 10), ':',
      digitChar (dt.minute / 10), digitChar (dt.minute % 10), ':',
      digitChar (dt.second / 10), digitChar (dt.second % 10)]⟩ from by
    simp [pyStrftime, fmtChars, pad4, pad2]]
  simp only [isCanonical]
  have ey : 1000 * (dt.year / 100 / 10) + 100 * (dt.year / 100 % 10) +
      10 * (dt.year % 100 / 10) + dt.year % 100 % 10 = dt.year := by omega
  have em : 10 * (dt.month / 10) + dt.month % 10 = dt.month := by omega
  have ed : 10 * (dt.day / 10) + dt.day % 10 = dt.day := by omega
  have eh : 10 * (dt.hour / 10) + dt.hour % 10 = dt.hour := by omega
  have emi : 10 * (dt.minute / 10) + dt.minute % 10 = dt.minute := by omega
  have es : 10 * (dt.second / 10) + dt.second % 10 = dt.second := by omega
  rw [digitsVal4_digitChar (show dt.year / 100 / 10 < 10 by omega)
      (show dt.year / 100 % 10 < 10 by omega)
      (show dt.year % 100 / 10 < 10 by omega)
      (show dt.year % 100 % 10 < 10 by omega),
    digitsVal2_digitChar (show dt.month / 10 < 10 by omega)
      (show dt.month % 10 < 10 by omega),
    digitsVal2_digitChar (show dt.day / 10 < 10 by omega)
      (show dt.day % 10 < 10 by omega),
    digitsVal2_digitChar (show dt.hour / 10 < 10 by omega)
      (show dt.hour % 10 < 10 by omega),
    digitsVal2_digitChar (show dt.minute / 10 < 10 by omega)
      (show dt.minute % 10 < 10 by omega),
    digitsVal2_digitChar (show dt.second / 10 < 10 by omega)
      (show dt.second % 10 < 10 by omega),
    ey, em, ed, eh, emi, es]
  simp only [beq_self_eq_true, Bool.true_and, decide_eq_true_eq]
  exact ⟨h1, h2, h3, h4, h5, h6, h7, h8, h9⟩

/-- C6: `convert_date` succeeds exactly when one of the two accepted
textual forms parses, its successful output is always a canonical
`YYYY-MM-DD HH:MM:SS` string, and its failure is always the
`Invalid date format` error. -/
theorem c6_convert_date_forms (s : String) :
    ((convert_date s).isOk =
      ((pyFromIsoformat s).isSome || (pyStrptimeZ s).isSome))
    ∧ (∀ d, convert_date s = .ok d → isCanonical d = true)
    ∧ (∀ e, convert_date s = .error e → e = "Invalid date format") := by
  refine ⟨?_, ?_, ?_⟩
  · cases hi : pyFromIsoformat s <;> cases hz : pyStrptimeZ s <;>
      simp [convert_date, hi, hz, Except.isOk, Except.toBool]
  · intro d hd
    obtain ⟨dt, hv, rfl⟩ := convert_date_ok_shape hd
    exact isCanonical_pyStrftime hv
  · intro e he
    unfold convert_date at he
    split at he
    · exact absurd he (by simp)
    · split at he
      · exact absurd he (by simp)
      · cases he
        rfl

/-- C6 witness: a `Z`-suffixed timestamp normalizes to a canonical string,
and an unparseable string yields the `Invalid date format` error. -/
theorem c6_convert_date_forms_witness :
    isCanonical "2023-06-01 07:08:09" = true ∧
    "Invalid date format" = "Invalid date format" :=
  ⟨(c6_convert_date_forms "2023-06-01T07:08:09Z").2.1
     "2023-06-01 07:08:09" rfl,
   (c6_convert_date_forms "nonsense").2.2 "Invalid date format" rfl⟩

lemma convert_ok_ne_empty {s d : String} (h : convert_date s = .ok d) :
    d ≠ "" := by
  obtain ⟨dt, hv, rfl⟩ := convert_date_ok_shape h
  intro he
  have hd := congrArg String.data he
  simp [pyStrftime, fmtChars, pad4, pad2] at hd

lemma exportLoop_ok (parent icon : String) (delta : Option String) :
    ∀ (items : List Item) (latest : Option String) (pages ps : List Page)
      (lat : Option String),
    exportLoop parent icon delta items latest pages = .ok (ps, lat) →
    ps = pages ++ (publishedItems delta items).map (fun it =>
        create_notion_page parent icon (title_contentOf it) it.text
          (source_contentOf it))
    ∧ lat = List.foldl updLatest latest (publishedDates delta items)
  | [], latest, pages, ps, lat => by
    intro h
    simp only [exportLoop] at h
    cases h
    simp [publishedItems, publishedDates]
  | it :: rest, latest, pages, ps, lat => by
    intro h
    simp only [exportLoop] at h
    split at h
    · exact absurd h (by simp)
    · next dc hdc =>
      split at h
      · exact absurd h (by simp)
      · next dm hdm =>
        split at h
        · next hsp =>
          obtain ⟨h1, h2⟩ := exportLoop_ok parent icon delta rest _ _ _ _ h
          simp only [publishedItems, publishedDates, hdc, hdm, hsp, if_true]
          constructor
          · rw [h1]
            simp
          · rw [h2]
            simp
        · next hsp =>
          obtain ⟨h1, h2⟩ := exportLoop_ok parent icon delta rest _ _ _ _ h
          simp only [publishedItems, publishedDates, hdc, hdm, hsp, if_false]
          exact ⟨by simpa using h1, h2⟩

lemma foldl_updLatest_some (a : String) : ∀ (ds : List String),
    List.foldl updLatest (some a) ds = some (List.foldl strMax a ds)
  | [] => rfl
  | d :: ds => by
    simp only [List.foldl_cons]
    rw [show updLatest (some a) d = some (strMax a d) from rfl]
    exact foldl_updLatest_some _ ds

lemma pyLt_to_nil (s : String) : pyLt s "" = false := by
  cases hs : s.data with
  | nil => show pyStrLtL s.data [] = false; rw [hs]; rfl
  | cons c cs => show pyStrLtL s.data [] = false; rw [hs]; rfl

lemma pyLt_from_nil {s : String} (h : s ≠ "") : pyLt "" s = true := by
  cases s with
  | mk d =>
    cases d with
    | nil => exact absurd rfl h
    | cons c cs => rfl

lemma pyTruthy_of_ne {s : String} (h : s ≠ "") : pyTruthy s = true := by
  cases s with
  | mk d =>
    cases d with
    | nil => exact absurd rfl h
    | cons c cs => rfl

lemma pyLt_notlt_trans {x y z : String} (h1 : pyLt x y = false)
    (h2 : pyLt y z = false) : pyLt x z = false := by
  cases hxz : pyLt x z with
  | false => rfl
  | true =>
    cases hzy : pyLt z y with
    | true =>
      have := pyLt_trans hxz hzy
      rw [h1] at this
      exact this.symm
    | false =>
      have heq : y = z := pyLt_eq_of_not_lt h2 hzy
      rw [heq] at h1
      rw [h1] at hxz
      exact hxz.symm

lemma notLt_strMax_left (a d : String) : pyLt (strMax a d) a = false := by
  unfold strMax
  cases hp : pyLt a d with
  | true => simpa using pyLt_asymm hp
  | false => simpa using pyLt_irrefl a

lemma notLt_foldl_strMax (a : String) : ∀ (ds : List String),
    pyLt (List.foldl strMax a ds) a = false := by
  intro ds
  induction ds generalizing a with
  | nil => exact pyLt_irrefl a
  | cons d ds ih =>
    simp only [List.foldl_cons]
    exact pyLt_notlt_trans (ih (strMax a d)) (notLt_strMax_left a d)

lemma strMax_absorb {w dc dm : String}
    (hor : pyLt w dc = true ∨ pyLt w dm = true) :
    strMax (strMax w dc) dm = strMax dc dm := by
  cases hw : pyLt w dc with
  | true => simp [strMax, hw]
  | false =>
    have hwm : pyLt w dm = true := by
      cases hor with
      | inl hx => rw [hw] at hx; exact absurd hx (by simp)
      | inr hx => exact hx
    have hdm : pyLt dc dm = true := by
      cases hcw : pyLt dc w with
      | true => exact pyLt_trans hcw hwm
      | false =>
        rw [← pyLt_eq_of_not_lt hw hcw]
        exact hwm
    simp [strMax, hw, hwm, hdm]

/-- Shape of the date list accumulated over published records against
watermark `w`: consecutive `(createdAt, modifiedAt)` pairs, each with at
least one component strictly greater than `w`, and both components
non-empty canonical strings. -/
inductive GoodDates (w : String) : List String → Prop where
  | nil : GoodDates w []
  | pair (dc dm : String) (rest : List String)
      (hor : pyLt w dc = true ∨ pyLt w dm = true)
      (hdc : dc ≠ "") (hdm : dm ≠ "")
      (hrest : GoodDates w rest) : GoodDates w (dc :: dm :: rest)

lemma publishedDates_good (w : String) : ∀ (items : List Item),
    GoodDates w (publishedDates (some w) items)
  | [] => .nil
  | it :: rest => by
    cases hdc : convert_date it.datecreated with
    | error e =>
      cases hdm : convert_date it.datemodified with
      | error f =>
        simpa only [publishedDates, hdc, hdm] using
          publishedDates_good w rest
      | ok dm =>
        simpa only [publishedDates, hdc, hdm] using
          publishedDates_good w rest
    | ok dc =>
      cases hdm : convert_date it.datemodified with
      | error f =>
        simpa only [publishedDates, hdc, hdm] using
          publishedDates_good w rest
      | ok dm =>
        by_cases hsp : shouldPublish (some w) dc dm = true
        · simp only [publishedDates, hdc, hdm, hsp, if_true,
            List.cons_append, List.nil_append]
          refine .pair dc dm _ ?_ (convert_ok_ne_empty hdc)
            (convert_ok_ne_empty hdm) (publishedDates_good w rest)
          have := hsp
          simp only [shouldPublish, Bool.or_eq_true] at this
          exact this
        · simpa only [publishedDates, hdc, hdm, hsp, if_false] using
            publishedDates_good w rest

lemma good_fold {w : String} {ds : List String} (hg : GoodDates w ds) :
    (configWriteOf (List.foldl updLatest none ds)).getD w =
      List.foldl strMax w ds := by
  cases hg with
  | nil => rfl
  | pair dc dm rest hor hdc hdm hrest =>
    have h1 : List.foldl updLatest none (dc :: dm :: rest) =
        some (List.foldl strMax (strMax dc dm) rest) := by
      simp only [List.foldl_cons]
      rw [show updLatest none dc = some dc from rfl,
        show updLatest (some dc) dm = some (strMax dc dm) from rfl]
      exact foldl_updLatest_some _ _
    have hmne : strMax dc dm ≠ "" := by
      unfold strMax
      cases hp : pyLt dc dm with
      | true => simpa using hdm
      | false => simpa using hdc
    have hvne : List.foldl strMax (strMax dc dm) rest ≠ "" := by
      intro hveq
      have h2 := notLt_foldl_strMax (strMax dc dm) rest
      rw [hveq, pyLt_from_nil hmne] at h2
      exact absurd h2 (by simp)
    rw [h1]
    simp only [configWriteOf, pyTruthy_of_ne hvne, if_true,
      Option.getD_some]
    rw [List.foldl_cons, List.foldl_cons, strMax_absorb hor]

lemma publishedDates_eq_nil {delta : Option String} : ∀ {items : List Item},
    publishedItems delta items = [] → publishedDates delta items = []
  | [], _ => rfl
  | it :: rest, h => by
    cases hdc : convert_date it.datecreated with
    | error e =>
      cases hdm : convert_date it.datemodified with
      | error f =>
        simp only [publishedItems, hdc, hdm] at h
        simpa only [publishedDates, hdc, hdm] using publishedDates_eq_nil h
      | ok dm =>
        simp only [publishedItems, hdc, hdm] at h
        simpa only [publishedDates, hdc, hdm] using publishedDates_eq_nil h
    | ok dc =>
      cases hdm : convert_date it.datemodified with
      | error f =>
        simp only [publishedItems, hdc, hdm] at h
        simpa only [publishedDates, hdc, hdm] using publishedDates_eq_nil h
      | ok dm =>
        by_cases hsp : shouldPublish delta dc dm = true
        · simp only [publishedItems, hdc, hdm, hsp, if_true] at h
          simp at h
        · simp only [publishedItems, hdc, hdm, hsp, if_false] at h
          simpa only [publishedDates, hdc, hdm, hsp, if_false] using
            publishedDates_eq_nil h

/-- C1: for every successful export run against a prior watermark `w`, the
watermark left in the configuration afterwards (the written value, or `w`
itself when no write happened) is exactly the maximum of `w` and the
normalized `createdAt`/`modifiedAt` values of the records that were
published; skipped records contribute nothing to this maximum. -/
theorem c1_watermark_max (parent icon w : String) (rows : List RowValues)
    (r : RunResult)
    (h : export_kobo_items parent icon (.ok rows) (some w) = .ok r) :
    r.configWrite.getD w =
      List.foldl strMax w
        (publishedDates (some w) (rows.map Item.ofValues)) := by
  simp only [export_kobo_items, parse_database] at h
  split at h
  · exact absurd h (by simp)
  · next pages latest hel =>
    cases h
    obtain ⟨h1, h2⟩ := exportLoop_ok parent icon (some w) _ _ _ _ _ hel
    show (configWriteOf latest).getD w = _
    rw [h2]
    exact good_fold (publishedDates_good w _)

/-- C1 witness: watermark = epoch sentinel, one record created
`2023-06-01 00:00:00` → published, and the persisted watermark is the fold
of the maxima, i.e. `2023-06-01 00:00:00`. -/
theorem c1_watermark_max_witness :
    (RunResult.configWrite
        ⟨[.info "Parsing database"],
         [⟨"p", "i", "Highlight: T",
           [⟨"txt", false⟩, ⟨"Source: T, A", true⟩]⟩],
         some "2023-06-01 00:00:00"⟩).getD NODELTA_DATE =
      List.foldl strMax NODELTA_DATE
        (publishedDates (some NODELTA_DATE)
          ([⟨"v", "highlight", "txt", none, none,
             some "2023-06-01 00:00:00", none, "B", "T", "A"⟩].map
            Item.ofValues)) :=
  c1_watermark_max "p" "i" NODELTA_DATE _ _ rfl

/-- C2: every successful export run publishes, in order, exactly the pages
of those records whose normalized `createdAt` or `modifiedAt` is strictly
greater than the watermark (all records when the watermark is the `None`
sentinel); records failing both comparisons are skipped. -/
theorem c2_filter_publishes_iff (parent icon : String)
    (delta : Option String) (rows : List RowValues) (r : RunResult)
    (h : export_kobo_items parent icon (.ok rows) delta = .ok r) :
    r.pages = (publishedItems delta (rows.map Item.ofValues)).map
      (fun it => create_notion_page parent icon (title_contentOf it)
        it.text (source_contentOf it)) := by
  simp only [export_kobo_items, parse_database] at h
  split at h
  · exact absurd h (by simp)
  · next pages latest hel =>
    cases h
    obtain ⟨h1, h2⟩ := exportLoop_ok parent icon delta _ _ _ _ _ hel
    simpa using h1

/-- C2 witness: watermark `2023-06-01 00:00:00`, one record whose
normalized `modifiedAt` equals the watermark (not greater) → no page
published. -/
theorem c2_filter_publishes_iff_witness :
    (RunResult.pages ⟨[.info "Parsing database"], [], none⟩) =
      (publishedItems (some "2023-06-01 00:00:00")
        ([⟨"v", "note", "t", none, none, none,
           some "2023-06-01T00:00:00Z", "B", "T", "A"⟩].map
          Item.ofValues)).map
        (fun it => create_notion_page "p" "i" (title_contentOf it)
          it.text (source_contentOf it)) :=
  c2_filter_publishes_iff "p" "i" (some "2023-06-01 00:00:00") _ _ rfl

/-- C7: a successful export run that published zero records writes nothing
back to the configuration: the watermark field is left untouched. -/
theorem c7_no_publish_no_write (parent icon : String)
    (delta : Option String) (rows : List RowValues) (r : RunResult)
    (h : export_kobo_items parent icon (.ok rows) delta = .ok r)
    (hp : r.pages = []) : r.configWrite = none := by
  simp only [export_kobo_items, parse_database] at h
  split at h
  · exact absurd h (by simp)
  · next pages latest hel =>
    cases h
    obtain ⟨h1, h2⟩ := exportLoop_ok parent icon delta _ _ _ _ _ hel
    simp only at hp
    rw [hp] at h1
    have hpub : publishedItems delta (rows.map Item.ofValues) = [] := by
      have h1' := h1.symm
      rw [List.nil_append] at h1'
      exact List.map_eq_nil_iff.mp h1'

    show configWriteOf latest = none
    rw [h2, publishedDates_eq_nil hpub]
    rfl

/-- C7 witness: a run over an empty record set publishes nothing and the
configuration write is absent. -/
theorem c7_no_publish_no_write_witness :
    (RunResult.configWrite ⟨[.info "Parsing database"], [], none⟩) = none :=
  c7_no_publish_no_write "p" "i" none [] _ rfl rfl
